import Mathlib

/-!
# Shortly — verification of the link-shortening service against its spec

Shallow embedding of the Shortly server (Express + Mongoose, MERN stack).
The relevant routes, models and utilities are transcribed into Lean:

* `LinkDoc`, `ClickDoc`, `UserDoc`, `SavedViewDoc`, `AnnotationDoc` mirror the
  Mongoose schemas (`Link.js`, `Click.js`, `User.js`, inline models of
  `analytics.routes.js`).
* `redirectHandler` transcribes the `GET /:code` handler of
  `redirect.routes.js` (guards, password gate, click payload construction).
* `workerJobBody` / `enqueueClickFallback` transcribe the two click-logging
  paths of `queue/index.js`.
* `createLink` / `updateLink` transcribe the create/update handlers of
  `links.routes.js`.
* `isSafeUrl` transcribes `utils/validators.js` (the anchored regexes become
  explicit prefix matchers over the character list).
* `overviewByDay` / `overviewTotalsClicks` transcribe the two aggregation
  pipelines of `buildOverviewPayload` in `analytics.routes.js`.
* `forgotHandler` transcribes `POST /forgot` of `auth.routes.js`.

External library calls (bcrypt comparison, sha256 IP hashing, Joi validation,
`$dateToString` bucket formatting, UA parsing) are passed in as opaque
function parameters: the claims under verification are about the control and
data flow around them, never about their internals.

Mongo `_id` values are modelled as `Nat`, timestamps as `Int` milliseconds
(the JS code only compares and adds them).
-/

namespace Shortly

/-! ## JS string primitives

`String.prototype.trim`, `String.prototype.toLowerCase` and
`String.prototype.slice` modelled directly on the character list (ASCII
case folding, which is all the code relies on). -/

/-- Whitespace characters removed by the JS `trim`. -/
def jsIsWs (c : Char) : Bool :=
  c = ' ' || c = '\t' || c = '\n' || c = '\r' ||
  c = Char.ofNat 11 || c = Char.ofNat 12

/-- JS `String.prototype.trim`. -/
def jsTrim (s : String) : String :=
  String.mk (((s.data.dropWhile jsIsWs).reverse.dropWhile jsIsWs).reverse)

/-- ASCII lowering of one character (JS `toLowerCase` / a regex `i` flag on
the ASCII inputs the code deals with). -/
def lowerChar (c : Char) : Char :=
  if 'A' ≤ c ∧ c ≤ 'Z' then Char.ofNat (c.toNat + 32) else c

/-- JS `String.prototype.toLowerCase` (ASCII). -/
def jsToLower (s : String) : String :=
  String.mk (s.data.map lowerChar)

/-- JS `String.prototype.slice(0, n)`. -/
def jsTake (s : String) (n : Nat) : String :=
  String.mk (s.data.take n)

/-! ## Data model (Mongoose schemas) -/

/-- The `utm` subdocument of `clickSchema` (`Click.js`) and the result of
`parseUTM` (`utils/parse.js`): each field present only when the query carried
a non-empty value. -/
structure Utm where
  source : Option String
  medium : Option String
  campaign : Option String
deriving Repr, DecidableEq

/-- Schema `linkSchema` (`Link.js`).  `expiresAt`/`passwordHash` are nullable;
`maxClicks`/`clicksCount` default to 0.  `meta` is flattened into three
fields. -/
structure LinkDoc where
  oid : Nat
  ownerId : Nat
  code : String
  longUrl : String
  domain : String
  isActive : Bool
  expiresAt : Option Int
  passwordHash : Option String
  maxClicks : Nat
  clicksCount : Nat
  metaTitle : Option String
  metaFavicon : Option String
  metaNotes : Option String
deriving Repr, DecidableEq

/-- Schema `clickSchema` (`Click.js`): the stored click event.  Note the schema has
an `ipHash` field and no raw-IP field. -/
structure ClickDoc where
  linkId : Nat
  ts : Int
  referer : String
  country : Option String
  ua : String
  device : String
  browser : String
  ipHash : String
  tzOffset : Int
  utm : Option Utm
deriving Repr, DecidableEq

/-- The payload handed to `enqueueClick` by the redirect handler
(`redirect.routes.js` lines 186–196): all `Click` fields except `ts`. -/
structure ClickPayload where
  linkId : Nat
  referer : String
  tzOffset : Int
  utm : Option Utm
  ipHash : String
  ua : String
  country : Option String
  device : String
  browser : String
deriving Repr, DecidableEq

/-- Call `Click.create(payload)`: a `ClickDoc` built from the payload, with `ts`
taking the schema default `new Date()` (the current time). -/
def ClickPayload.toDoc (p : ClickPayload) (now : Int) : ClickDoc :=
  { linkId := p.linkId
    ts := now
    referer := p.referer
    country := p.country
    ua := p.ua
    device := p.device
    browser := p.browser
    ipHash := p.ipHash
    tzOffset := p.tzOffset
    utm := p.utm }

/-! ## `utils/crypto.js` -/

/-- Function `comparePassword` (`utils/crypto.js`): returns `false` when the password
or the stored hash is missing/empty, otherwise defers to
`bcrypt.compareSync` (passed in as the opaque `bc`). -/
def comparePassword (bc : String → String → Bool) (pwd : String)
    (hash : Option String) : Bool :=
  match hash with
  | none => false
  | some h => if pwd = "" then false else bc pwd h

/-! ## `redirect.routes.js` — GET /:code -/

/-- An HTTP response of the redirect route: either an error page rendered by
`errorPage` (`status`, `title`) or `res.redirect(302, location)`. -/
inductive RedirectResponse where
  | page (status : Nat) (title : String)
  | redirect (location : String)
deriving Repr, DecidableEq

/-- HTTP status of a `RedirectResponse` (`res.redirect` defaults to 302 as
written in the source). -/
def RedirectResponse.status : RedirectResponse → Nat
  | .page s _ => s
  | .redirect _ => 302

/-- The request data consulted by the redirect handler.  `signedCookie` is
`req.signedCookies`, `pw`/`okQuery`/`tzOffset`/`utm*` come from `req.query`
(`tzOffset` is the result of the `parseInt(...) || 0` coercion, `none`
standing for `NaN`), `referer`/`ua` from headers, `ip` from
`x-forwarded-for`/socket, `country` from `getCountryFromHeaders`
(`utils/geo.js`) and `device`/`browser` from `parseUA` (`utils/ua.js`,
an external UA-parser library call). -/
structure RedirectRequest where
  code : String
  signedCookie : String → Option String
  pw : String
  okQuery : Bool
  referer : Option String
  tzOffset : Option Int
  utmSource : Option String
  utmMedium : Option String
  utmCampaign : Option String
  ip : String
  ua : String
  country : Option String
  device : String
  browser : String

/-- Function `parseUTM` (`utils/parse.js`): keep each UTM field only when truthy
(non-empty), truncated to 64 characters; return `undefined` when none is
present. -/
def parseUTM (src med camp : Option String) : Option Utm :=
  let keep : Option String → Option String := fun v =>
    match v with
    | none => none
    | some s => if s = "" then none else some (jsTake s 64)
  let obj : Utm := { source := keep src, medium := keep med, campaign := keep camp }
  if obj.source = none ∧ obj.medium = none ∧ obj.campaign = none then none
  else some obj

/-- The cookie key `sl_pw_ok_${link._id}` after
`.replace(/[^a-zA-Z0-9_-]/g, "")`. -/
def cookieKeyFor (oid : Nat) : String :=
  String.mk (("sl_pw_ok_" ++ toString oid).data.filter
    (fun c => c.isAlpha || c.isDigit || c = '_' || c = '-'))

/-- The click payload built at `redirect.routes.js` lines 173–196:
referer defaults to `"direct"`, tzOffset to 0, the IP is hashed with
`ipHash` (`utils/crypto.js`, passed in as the opaque `hashIp`) before being
stored. -/
def buildClickPayload (hashIp : String → String) (link : LinkDoc)
    (req : RedirectRequest) : ClickPayload :=
  { linkId := link.oid
    referer := req.referer.getD "direct"
    tzOffset := req.tzOffset.getD 0
    utm := parseUTM req.utmSource req.utmMedium req.utmCampaign
    ipHash := hashIp req.ip
    ua := req.ua
    country := req.country
    device := req.device
    browser := req.browser }

/-- Flag `okCookie` of the password gate:
`req.signedCookies?.[cookieKey] === "1"`. -/
def okCookie (req : RedirectRequest) (link : LinkDoc) : Bool :=
  req.signedCookie (cookieKeyFor link.oid) = some "1"

/-- Flag `okPw` of the password gate: `pw ? await comparePassword(pw,
link.passwordHash) : false`. -/
def okPw (bc : String → String → Bool) (req : RedirectRequest)
    (hash : String) : Bool :=
  if req.pw ≠ "" then comparePassword bc req.pw (some hash) else false

/-- The optional password gate of `GET /:code` (`redirect.routes.js`
lines 149–171): the early `return res.redirect(302, ...)`s, `none` when
control falls through to click logging.  (The third branch also sets the
signed cookie; only the response is modelled.) -/
def passwordGate (bc : String → String → Bool) (req : RedirectRequest)
    (code : String) (link : LinkDoc) : Option RedirectResponse :=
  match link.passwordHash with
  | none => none
  | some hash =>
    if !okCookie req link && !okPw bc req hash then
      some (.redirect ("/r/" ++ code ++ "/unlock"))
    else if req.pw ≠ "" && !okPw bc req hash then
      some (.redirect ("/r/" ++ code ++ "/unlock?e=1"))
    else if okPw bc req hash && !okCookie req link && !req.okQuery then
      some (.redirect ("/r/" ++ code ++ "?ok=1"))
    else none

/-- Handler of `GET /:code` (`redirect.routes.js` lines 108–199).  Returns the response
together with the payload passed to `enqueueClick` (`none` when no click is
logged).  `bc` is `bcrypt.compareSync`, `hashIp` the IP hasher, `links` the
`Link` collection (`findOne` = first match), `now` the current time. -/
def redirectHandler (bc : String → String → Bool) (hashIp : String → String)
    (links : List LinkDoc) (req : RedirectRequest) (now : Int) :
    RedirectResponse × Option ClickPayload :=
  match links.find? (fun l => l.code = jsTrim req.code) with
  | none => (.page 404 "Link not found", none)
  | some link =>
    if !link.isActive then (.page 404 "Link not found", none)
    else if (match link.expiresAt with
             | some e => decide (e < now)
             | none => false) then (.page 410 "Link expired", none)
    else if link.maxClicks ≠ 0 && link.clicksCount ≥ link.maxClicks then
      (.page 429 "Max clicks reached", none)
    else
      match passwordGate bc req (jsTrim req.code) link with
      | some resp => (resp, none)
      | none =>
        (.redirect link.longUrl, some (buildClickPayload hashIp link req))

/-! ## `queue/index.js` — click logging -/

/-- The database state touched by click logging: the `Link` and `Click`
collections. -/
structure Store where
  links : List LinkDoc
  clicks : List ClickDoc
deriving Repr, DecidableEq

/-- Call `Link.updateOne` with `$inc: { clicksCount: 1 }`:
increment `clicksCount` of the first document whose `_id` matches
(`updateOne` updates at most one document); every other field, and every
other document, is untouched. -/
def linkIncFirst (id : Nat) : List LinkDoc → List LinkDoc
  | [] => []
  | l :: ls =>
    if l.oid = id then { l with clicksCount := l.clicksCount + 1 } :: ls
    else l :: linkIncFirst id ls

/-- Call `Click.create(payload)` on the store: append the new click document,
`ts` defaulting to the current time. -/
def clickCreate (p : ClickPayload) (now : Int) (st : Store) : Store :=
  { st with clicks := st.clicks ++ [p.toDoc now] }

/-- The inline fallback of `enqueueClick` (`queue/index.js` lines 96–104):
`Click.create(payload)` then `Link.updateOne({_id: payload.linkId},
{$inc: {clicksCount: 1}})`, run on `process.nextTick`. -/
def enqueueClickFallback (payload : ClickPayload) (now : Int) (st : Store) :
    Store :=
  let st1 := clickCreate payload now st
  { st1 with links := linkIncFirst payload.linkId st1.links }

/-- The BullMQ worker body (`queue/index.js` lines 52–61): unpack
`job.data.payload`, return early when absent, else `Click.create(payload)`
then the `clicksCount` increment. -/
def workerJobBody (jobData : Option ClickPayload) (now : Int) (st : Store) :
    Store :=
  match jobData with
  | none => st
  | some payload =>
    let st1 := clickCreate payload now st
    { st1 with links := linkIncFirst payload.linkId st1.links }

/-- The queue path of `enqueueClick` (`queue/index.js` lines 86–94) followed
by the worker consuming the job: `queue.add(JOB_NAME, { payload }, ...)`
stores `{ payload }` as `job.data`, so the worker later runs on
`job.data = { payload }`. -/
def enqueueClickQueued (payload : ClickPayload) (now : Int) (st : Store) :
    Store :=
  workerJobBody (some payload) now st

/-! ## `utils/validators.js` — URL safety

The anchored regexes of `privateNets` become explicit prefix matchers over
the character list.  Regexes `0` (localhost/loopback) and `4`
(`javascript:`) carry the `i` flag; regexes `1`–`3` (the `10.`, `192.168.`
and `172.16`–`172.31` ranges) do not and match case-sensitively, exactly as
in the source. -/

/-- Case-sensitive anchored prefix match (`^pat`). -/
def startsWithCS (pat : String) (cs : List Char) : Bool :=
  pat.data.isPrefixOf cs

/-- Case-insensitive anchored prefix match (`^pat` with the `i` flag);
`pat` is given in lowercase. -/
def startsWithCI (pat : String) (cs : List Char) : Bool :=
  pat.data.isPrefixOf (cs.map lowerChar)

/-- The second octet alternatives of
`/^http(s)?:\/\/172\.(1[6-9]|2[0-9]|3[0-1])\./`. -/
def octet16to31 : List String :=
  ["16", "17", "18", "19", "20", "21", "22", "23",
   "24", "25", "26", "27", "28", "29", "30", "31"]

/-- Group `(1[6-9]|2[0-9]|3[0-1])\.` applied after the `172.` prefix. -/
def matchesOctetDot (cs : List Char) : Bool :=
  octet16to31.any (fun d => startsWithCS (d ++ ".") cs)

/-- One predicate per entry of `privateNets`, in source order. -/
def privateNetHit (cs : List Char) : Bool :=
  (startsWithCI "http://localhost" cs || startsWithCI "https://localhost" cs ||
   startsWithCI "http://127.0.0.1" cs || startsWithCI "https://127.0.0.1" cs ||
   startsWithCI "http://0.0.0.0" cs || startsWithCI "https://0.0.0.0" cs) ||
  (startsWithCS "http://10." cs || startsWithCS "https://10." cs) ||
  (startsWithCS "http://192.168." cs || startsWithCS "https://192.168." cs) ||
  ((startsWithCS "http://172." cs && matchesOctetDot (cs.drop 11)) ||
   (startsWithCS "https://172." cs && matchesOctetDot (cs.drop 12))) ||
  (startsWithCI "javascript:" cs)

/-- Function `isSafeUrl` (`utils/validators.js` lines 37–41): trim, require an
`http(s)://` prefix (case-insensitive), then reject any `privateNets`
match. -/
def isSafeUrl (url : String) : Bool :=
  let u := (jsTrim url).data
  if !(startsWithCI "http://" u || startsWithCI "https://" u) then false
  else !(privateNetHit u)

/-! ## `links.routes.js` — create / update -/

/-- Outcome of an authenticated JSON route: an error status with message, or
a success value. -/
inductive ApiResult (α : Type) where
  | err (status : Nat) (message : String)
  | ok (a : α)
deriving Repr, DecidableEq

/-- The validated body of `POST /` (after `createLinkSchema`): optional
fields are `none` when absent. -/
structure CreateValue where
  longUrl : String
  code : Option String
  notes : Option String
  expiresAt : Option Int
  password : Option String
  maxClicks : Nat
  domain : Option String
deriving Repr, DecidableEq

/-- The `do { code = genCode() } while (await Link.findOne({ code }))` loop:
`gen` is the `genCode` random stream (call `i` returns `gen i`), `fuel`
bounds the number of iterations (the JS loop runs unboundedly; `none` means
the fuel ran out before a free code appeared). -/
def genFreshCode (gen : Nat → String) (links : List LinkDoc) :
    Nat → Nat → Option String
  | _, 0 => none
  | i, fuel + 1 =>
    if (links.find? (fun l => l.code = gen i)).isSome then
      genFreshCode gen links (i + 1) fuel
    else some (gen i)

/-- The document built by `Link.create` in `POST /` (`links.routes.js`
lines 63–72), given the chosen code and the (opaque) `fetchPageMeta`
result. -/
def newLinkDoc (hashPw : String → String) (newId ownerId : Nat)
    (v : CreateValue) (code : String)
    (fetchedTitle fetchedFavicon : Option String) : LinkDoc :=
  { oid := newId
    ownerId := ownerId
    code := code
    longUrl := v.longUrl
    domain := jsToLower (jsTrim (v.domain.getD ""))
    isActive := true
    expiresAt := v.expiresAt
    passwordHash :=
      match v.password with
      | none => none
      | some p => if p = "" then none else some (hashPw p)
    maxClicks := v.maxClicks
    clicksCount := 0
    metaTitle := fetchedTitle
    metaFavicon := fetchedFavicon
    metaNotes := some (v.notes.getD "") }

/-- Handler of `POST /` (`links.routes.js` lines 45–75), after Joi validation.
Returns `none` when the `genCode` retry loop exhausts its fuel (the JS loop
would still be running); otherwise the response and the new `Link`
collection. -/
def createLink (gen : Nat → String) (fuel : Nat) (hashPw : String → String)
    (fetchedTitle fetchedFavicon : Option String) (newId ownerId : Nat)
    (v : CreateValue) (links : List LinkDoc) :
    Option (ApiResult LinkDoc × List LinkDoc) :=
  if !isSafeUrl v.longUrl then some (.err 400 "Unsafe URL", links)
  else if jsTrim (v.code.getD "") = "" then
    match genFreshCode gen links 0 fuel with
    | none => none
    | some code =>
      some (.ok (newLinkDoc hashPw newId ownerId v code fetchedTitle fetchedFavicon),
        links ++ [newLinkDoc hashPw newId ownerId v code fetchedTitle fetchedFavicon])
  else if (links.find? (fun l => l.code = jsTrim (v.code.getD ""))).isSome then
    some (.err 409 "Code already taken", links)
  else
    some (.ok (newLinkDoc hashPw newId ownerId v (jsTrim (v.code.getD ""))
        fetchedTitle fetchedFavicon),
      links ++ [newLinkDoc hashPw newId ownerId v (jsTrim (v.code.getD ""))
        fetchedTitle fetchedFavicon])

/-- The validated body of `PATCH /:id` (after `updateLinkSchema`): a field
is `none` when absent from the request.  `password` and `expiresAt` admit an
explicit null (`some none` = present-and-empty / present-and-null). -/
structure UpdateValue where
  longUrl : Option String
  notes : Option String
  isActive : Option Bool
  expiresAt : Option (Option Int)
  password : Option (Option String)
  maxClicks : Option Nat
  domain : Option String
  code : Option String
deriving Repr, DecidableEq

/-- The `$set` application of `findOneAndUpdate` in `PATCH /:id`: overwrite
exactly the present fields (with the password→hash mapping, domain
lowercasing and best-effort meta refresh already folded in by the
handler). -/
def applyUpdate (hashPw : String → String) (v : UpdateValue)
    (fetchedTitle fetchedFavicon : Option String) (l : LinkDoc) : LinkDoc :=
  { l with
    longUrl := v.longUrl.getD l.longUrl
    isActive := v.isActive.getD l.isActive
    expiresAt := match v.expiresAt with | none => l.expiresAt | some e => e
    passwordHash :=
      match v.password with
      | none => l.passwordHash
      | some none => none
      | some (some p) => if p = "" then none else some (hashPw p)
    maxClicks := v.maxClicks.getD l.maxClicks
    domain := match v.domain with
              | none => l.domain
              | some d => jsToLower d
    code := v.code.getD l.code
    -- `$set.notes` targets the non-schema top-level path `notes`
    -- (the schema only has `meta.notes`), so strict-mode Mongoose strips
    -- it: the stored notes are unchanged by PATCH.
    metaNotes := l.metaNotes
    metaTitle :=
      match v.longUrl with
      | none => l.metaTitle
      | some _ => match fetchedTitle with
                  | some t => some t
                  | none => l.metaTitle
    metaFavicon :=
      match v.longUrl with
      | none => l.metaFavicon
      | some _ => match fetchedFavicon with
                  | some f => some f
                  | none => l.metaFavicon }

/-- Call `findOneAndUpdate` on `_id` and `ownerId` with `$set`, returning the new document: update
the first document matching both the id and the owner, returning the updated
document; `none` when no document matches. -/
def findOneAndUpdate (upd : LinkDoc → LinkDoc) (reqId ownerId : Nat) :
    List LinkDoc → Option LinkDoc × List LinkDoc
  | [] => (none, [])
  | l :: ls =>
    if l.oid = reqId ∧ l.ownerId = ownerId then (some (upd l), upd l :: ls)
    else
      let (r, ls') := findOneAndUpdate upd reqId ownerId ls
      (r, l :: ls')

/-- Handler of `PATCH /:id` (`links.routes.js` lines 123–168), after Joi validation. -/
def updateLink (hashPw : String → String)
    (fetchedTitle fetchedFavicon : Option String) (reqId ownerId : Nat)
    (v : UpdateValue) (links : List LinkDoc) :
    ApiResult LinkDoc × List LinkDoc :=
  if ((match v.longUrl with
      | some u => !isSafeUrl u
      | none => false) : Bool) then (.err 400 "Unsafe URL", links)
  else if ((match v.code with
           | none => false
           | some c =>
             if c = "" then false
             else match links.find? (fun l => l.code = c) with
                  | some l => decide (l.oid ≠ reqId)
                  | none => false) : Bool) then (.err 409 "Code already taken", links)
  else
    match findOneAndUpdate (applyUpdate hashPw v fetchedTitle fetchedFavicon)
        reqId ownerId links with
    | (none, _) => (.err 404 "Not found", links)
    | (some doc, links') => (.ok doc, links')

/-! ## `analytics.routes.js` — overview aggregations -/

/-- The output of `commonFiltersFromQuery`: one optional equality filter per
supported field (`utm.source`, `utm.medium`, `utm.campaign`, `country`,
`device`, `browser`); `none` = filter absent. -/
structure ClickFilters where
  source : Option String
  medium : Option String
  campaign : Option String
  country : Option String
  device : Option String
  browser : Option String
deriving Repr, DecidableEq

/-- A Mongo equality filter on a possibly-missing field: the document
matches only when the field is present with that exact value. -/
def optFieldMatches (filt : Option String) (field : Option String) : Bool :=
  match filt with
  | none => true
  | some s => field = some s

/-- Whether a click document satisfies every filter of the `$match`. -/
def filtersMatch (f : ClickFilters) (c : ClickDoc) : Bool :=
  optFieldMatches f.source (c.utm.bind (·.source)) &&
  optFieldMatches f.medium (c.utm.bind (·.medium)) &&
  optFieldMatches f.campaign (c.utm.bind (·.campaign)) &&
  optFieldMatches f.country c.country &&
  optFieldMatches f.device (some c.device) &&
  optFieldMatches f.browser (some c.browser)

/-- Filter `matchNow = { linkId: { $in: linkIds }, ts: { $gte: since },
...filters }` (`analytics.routes.js` line 250). -/
def matchNow (linkIds : List Nat) (since : Int) (f : ClickFilters)
    (c : ClickDoc) : Bool :=
  linkIds.contains c.linkId && decide (since ≤ c.ts) && filtersMatch f c

/-- Add one occurrence of key `k` to a `$group` accumulator. -/
def bumpKey (k : String) : List (String × Nat) → List (String × Nat)
  | [] => [(k, 1)]
  | (k', n) :: rest =>
    if k' = k then (k', n + 1) :: rest else (k', n) :: bumpKey k rest

/-- Stage `$group { _id: key, clicks: { $sum: 1 } }`: one row per distinct key
with its count (row order immaterial; the pipeline's `$sort` only reorders
rows). -/
def groupCounts {α : Type} (key : α → String) : List α → List (String × Nat)
  | [] => []
  | c :: rest => bumpKey (key c) (groupCounts key rest)

def msPerMin : Int := 60000

/-- The `byDay` pipeline of `buildOverviewPayload` (`analytics.routes.js`
lines 277–282): `$match matchNow`, `$addFields localTs = ts + tzMin*60000`,
`$group` by `$dateToString(fmt, localTs)` (the formatter is the opaque
`fmtBucket`), count per bucket. -/
def overviewByDay (fmtBucket : Int → String) (tzMin : Int)
    (linkIds : List Nat) (since : Int) (f : ClickFilters)
    (clicks : List ClickDoc) : List (String × Nat) :=
  groupCounts (fun c => fmtBucket (c.ts + tzMin * msPerMin))
    (clicks.filter (matchNow linkIds since f))

/-- The `totalsAgg` pipeline (`analytics.routes.js` line 287) combined with
`totalsAgg[0]?.clicks || 0` (line 362): `$group { _id: null }` yields one
row per nonempty input. -/
def overviewTotalsClicks (linkIds : List Nat) (since : Int)
    (f : ClickFilters) (clicks : List ClickDoc) : Nat :=
  match groupCounts (fun _ => "null")
      (clicks.filter (matchNow linkIds since f)) with
  | [] => 0
  | (_, n) :: _ => n

/-- The `byDay` and `totals.clicks` fields of the overview payload,
including the empty-`linkIds` early return (`analytics.routes.js`
lines 226–246): the owner's links are fetched first and both pipelines
match on `linkId ∈ linkIds`. -/
def overviewPayloadCore (fmtBucket : Int → String) (tzMin : Int)
    (ownerId : Nat) (since : Int) (f : ClickFilters)
    (links : List LinkDoc) (clicks : List ClickDoc) :
    List (String × Nat) × Nat :=
  let linkIds := (links.filter (fun l => l.ownerId = ownerId)).map (·.oid)
  if linkIds.isEmpty then ([], 0)
  else (overviewByDay fmtBucket tzMin linkIds since f clicks,
        overviewTotalsClicks linkIds since f clicks)

/-! ## `analytics.routes.js` — saved views and annotations -/

/-- The inline `SavedView` model (`analytics.routes.js` lines 55–77),
filters flattened. -/
structure SavedViewDoc where
  oid : Nat
  ownerId : Nat
  name : String
  range : String
  compare : Bool
  fCountry : Option String
  fDevice : Option String
  fBrowser : Option String
  fSource : Option String
  fMedium : Option String
  fCampaign : Option String
  breakdown : String
  updatedAt : Int
deriving Repr, DecidableEq

/-- The inline `Annotation` model (`analytics.routes.js` lines 79–93). -/
structure AnnotationDoc where
  oid : Nat
  ownerId : Nat
  scope : String
  ts : Int
  label : String
  color : String
deriving Repr, DecidableEq

/-- Handler of `GET /analytics/views`: `SavedView.find({ ownerId: req.user._id })`
(the `updatedAt` sort only reorders the rows). -/
def listViews (u : Nat) (vs : List SavedViewDoc) : List SavedViewDoc :=
  vs.filter (fun v => v.ownerId = u)

/-- The request body of `POST /analytics/views` (defaults applied as in the
destructuring at line 434). -/
structure ViewBody where
  name : String
  range : String
  compare : Bool
  fCountry : Option String
  fDevice : Option String
  fBrowser : Option String
  fSource : Option String
  fMedium : Option String
  fCampaign : Option String
  breakdown : String
deriving Repr, DecidableEq

/-- Handler of `POST /analytics/views` (`analytics.routes.js` lines 433–447): name
required (trimmed), `ownerId` stamped from `req.user._id`. -/
def createView (newId : Nat) (now : Int) (u : Nat) (b : ViewBody)
    (vs : List SavedViewDoc) : ApiResult Nat × List SavedViewDoc :=
  if jsTrim b.name = "" then (.err 400 "Name required", vs)
  else
    let doc : SavedViewDoc :=
      { oid := newId, ownerId := u, name := jsTrim b.name, range := b.range
        compare := b.compare, fCountry := b.fCountry, fDevice := b.fDevice
        fBrowser := b.fBrowser, fSource := b.fSource, fMedium := b.fMedium
        fCampaign := b.fCampaign, breakdown := b.breakdown, updatedAt := now }
    (.ok newId, vs ++ [doc])

/-- Handler of `DELETE /analytics/views/:id`:
`SavedView.deleteOne({ _id: id, ownerId: req.user._id })` — remove the
first document matching both the id and the calling user. -/
def deleteViewOwned (id u : Nat) : List SavedViewDoc → List SavedViewDoc
  | [] => []
  | v :: vs =>
    if v.oid = id ∧ v.ownerId = u then vs else v :: deleteViewOwned id u vs

/-- Handler of `GET /analytics/annotations`:
`Annotation.find({ ownerId: req.user._id, ts: { $gte: since } })`. -/
def listAnnotations (u : Nat) (since : Int) (as0 : List AnnotationDoc) :
    List AnnotationDoc :=
  as0.filter (fun a => a.ownerId = u ∧ since ≤ a.ts)

/-- Handler of `POST /analytics/annotations` (`analytics.routes.js` lines 464–476):
`ts` and `label` required (truthy), `ownerId` stamped from
`req.user._id`, color defaulting to `#ef4444`. -/
def annotationCreate (newId : Nat) (u : Nat) (ts : Option Int)
    (label : String) (color : Option String) (as0 : List AnnotationDoc) :
    ApiResult Nat × List AnnotationDoc :=
  match ts with
  | none => (.err 400 "ts and label required", as0)
  | some t =>
    if label = "" then (.err 400 "ts and label required", as0)
    else
      let doc : AnnotationDoc :=
        { oid := newId, ownerId := u, scope := "overview", ts := t
          label := label, color := color.getD "#ef4444" }
      (.ok newId, as0 ++ [doc])

/-- Handler of `DELETE /analytics/annotations/:id`:
`Annotation.deleteOne({ _id: id, ownerId: req.user._id })`. -/
def deleteAnnotationOwned (id u : Nat) :
    List AnnotationDoc → List AnnotationDoc
  | [] => []
  | a :: as0 =>
    if a.oid = id ∧ a.ownerId = u then as0
    else a :: deleteAnnotationOwned id u as0

/-- A saved-view operation invoked by one authenticated user. -/
inductive ViewOp where
  | create (newId : Nat) (now : Int) (b : ViewBody)
  | delete (id : Nat)
deriving Repr

/-- Run a sequence of saved-view operations on behalf of user `u`. -/
def runViewOps (u : Nat) : List ViewOp → List SavedViewDoc →
    List SavedViewDoc
  | [], vs => vs
  | .create newId now b :: ops, vs =>
    runViewOps u ops (createView newId now u b vs).2
  | .delete id :: ops, vs => runViewOps u ops (deleteViewOwned id u vs)

/-- An annotation operation invoked by one authenticated user. -/
inductive AnnOp where
  | create (newId : Nat) (ts : Option Int) (label : String)
      (color : Option String)
  | delete (id : Nat)
deriving Repr

/-- Run a sequence of annotation operations on behalf of user `u`. -/
def runAnnOps (u : Nat) : List AnnOp → List AnnotationDoc →
    List AnnotationDoc
  | [], as0 => as0
  | .create newId ts label color :: ops, as0 =>
    runAnnOps u ops (annotationCreate newId u ts label color as0).2
  | .delete id :: ops, as0 => runAnnOps u ops (deleteAnnotationOwned id u as0)

/-! ## `auth.routes.js` — POST /forgot -/

/-- Schema `userSchema` (`User.js`). -/
structure UserDoc where
  oid : Nat
  name : String
  email : String
  passwordHash : String
  emailVerified : Bool
  verifyCode : Option String
  verifyCodeExpires : Option Int
  resetCode : Option String
  resetCodeExpires : Option Int
  role : String
deriving Repr, DecidableEq

/-- A JSON response of the auth routes: status, `message` body field, and
the optional `devCode` field that `POST /forgot` adds when `DEV_MAIL` is
enabled. -/
structure JsonResponse where
  status : Nat
  message : String
  devCode : Option String
deriving Repr, DecidableEq

/-- Effect of `user.resetCode = code; user.resetCodeExpires = addMinutes(now, 10);
await user.save()` applied to the document `findOne` returned (the first
match). -/
def setResetFirst (email code : String) (exp : Int) :
    List UserDoc → List UserDoc
  | [] => []
  | u :: us =>
    if u.email = email then
      { u with resetCode := some code, resetCodeExpires := some exp } :: us
    else u :: setResetFirst email code exp us

/-- Handler of `POST /forgot` (`auth.routes.js` lines 415–448).  `validate` is
`forgotSchema.validate` (Joi, opaque): `some msg` = validation error.
`devMail` is `env.DEV_MAIL`; `gen6` the generated `sixDigits()` code.
Mail sending has no effect on the response (failures are caught and only
logged). -/
def forgotHandler (validate : String → Option String) (devMail : Bool)
    (gen6 : String) (now : Int) (emailRaw : String)
    (users : List UserDoc) : JsonResponse × List UserDoc :=
  match validate emailRaw with
  | some msg => ({ status := 400, message := msg, devCode := none }, users)
  | none =>
    match users.find? (fun u => u.email = jsToLower (jsTrim emailRaw)) with
    | none =>
      ({ status := 200, message := "If the email exists, a code has been sent."
         devCode := none }, users)
    | some _ =>
      ({ status := 200, message := "If the email exists, a code has been sent."
         devCode := if devMail then some gen6 else none },
       setResetFirst (jsToLower (jsTrim emailRaw)) gen6 (now + 10 * 60000) users)

/-! ## Spec-side URL predicate (for comparison with `isSafeUrl`)

The spec claims the safety check fails exactly when the URL lacks an
`http(s)://` prefix (case-insensitive) or targets
localhost/127.0.0.1/0.0.0.0, the 10.x, 192.168.x or 172.16–172.31 private
ranges, or is a `javascript:` URL.  The natural reading applies the
targeting tests to the URL irrespective of letter case (a URL written
`HTTP://10.0.0.1` still targets the 10.x range), so the predicate below
works on the lower-cased characters throughout.  It exists only to be
compared with the source-derived `isSafeUrl`. -/

/-- The claim's characterization of an unsafe URL, on lower-cased
characters. -/
def claimUnsafeUrl (url : String) : Bool :=
  let u := ((jsTrim url).data).map lowerChar
  !(startsWithCS "http://" u || startsWithCS "https://" u) ||
  startsWithCS "http://localhost" u || startsWithCS "https://localhost" u ||
  startsWithCS "http://127.0.0.1" u || startsWithCS "https://127.0.0.1" u ||
  startsWithCS "http://0.0.0.0" u || startsWithCS "https://0.0.0.0" u ||
  startsWithCS "http://10." u || startsWithCS "https://10." u ||
  startsWithCS "http://192.168." u || startsWithCS "https://192.168." u ||
  (startsWithCS "http://172." u && matchesOctetDot (u.drop 11)) ||
  (startsWithCS "https://172." u && matchesOctetDot (u.drop 12)) ||
  startsWithCS "javascript:" u

/-! ## Concrete sample data (used by witness theorems) -/

/-- A bcrypt comparison that accepts exactly the pair `("pw", "h")`. -/
def sampleBc : String → String → Bool :=
  fun p h => p = "pw" && h = "h"

/-- A sample IP hasher that visibly differs from the identity. -/
def sampleHashIp : String → String := fun s => "hash:" ++ s

/-- A redirect request for code `abc` with no cookie, no password, no
headers of interest. -/
def sampleReq : RedirectRequest :=
  { code := "abc"
    signedCookie := fun _ => none
    pw := ""
    okQuery := false
    referer := none
    tzOffset := none
    utmSource := none
    utmMedium := none
    utmCampaign := none
    ip := "203.0.113.9"
    ua := "UA"
    country := none
    device := "desktop"
    browser := "Unknown" }

/-- An active link for code `abc` that expired at time 5. -/
def sampleExpiredLink : LinkDoc :=
  { oid := 1, ownerId := 1, code := "abc", longUrl := "https://example.com"
    domain := "", isActive := true, expiresAt := some 5
    passwordHash := none, maxClicks := 0, clicksCount := 0
    metaTitle := none, metaFavicon := none, metaNotes := none }

/-- An active password-protected link for code `abc`, no expiry, no cap. -/
def samplePwLink : LinkDoc :=
  { oid := 2, ownerId := 1, code := "abc", longUrl := "https://example.com"
    domain := "", isActive := true, expiresAt := none
    passwordHash := some "h", maxClicks := 0, clicksCount := 0
    metaTitle := none, metaFavicon := none, metaNotes := none }

/-- An active link for code `abc` with no cap and a large click count. -/
def sampleBusyLink : LinkDoc :=
  { oid := 3, ownerId := 1, code := "abc", longUrl := "https://example.com"
    domain := "", isActive := true, expiresAt := none
    passwordHash := none, maxClicks := 0, clicksCount := 1000000
    metaTitle := none, metaFavicon := none, metaNotes := none }

/-- A sample click payload for link 3. -/
def samplePayload : ClickPayload :=
  { linkId := 3, referer := "direct", tzOffset := 0, utm := none
    ipHash := "hash:203.0.113.9", ua := "UA", country := none
    device := "desktop", browser := "Unknown" }

/-- A store holding the busy link and no clicks. -/
def sampleStore : Store := { links := [sampleBusyLink], clicks := [] }

/-- A link-creation body whose long URL targets the 10.x range behind an
upper-case scheme. -/
def upperTenValue : CreateValue :=
  { longUrl := "HTTP://10.0.0.1", code := some "mycode1", notes := none
    expiresAt := none, password := none, maxClicks := 0, domain := none }

/-- A link-creation body whose long URL targets the 10.x range with the
lower-case scheme. -/
def lowerTenValue : CreateValue :=
  { longUrl := "http://10.0.0.1", code := some "mycode1", notes := none
    expiresAt := none, password := none, maxClicks := 0, domain := none }

/-- A registered user account. -/
def sampleUser : UserDoc :=
  { oid := 5, name := "Sam", email := "sam@example.com"
    passwordHash := "ph", emailVerified := true, verifyCode := none
    verifyCodeExpires := none, resetCode := none, resetCodeExpires := none
    role := "user" }

/-- A saved view owned by user 1. -/
def sampleView : SavedViewDoc :=
  { oid := 10, ownerId := 1, name := "my view", range := "7d"
    compare := false, fCountry := none, fDevice := none, fBrowser := none
    fSource := none, fMedium := none, fCampaign := none
    breakdown := "none", updatedAt := 0 }

/-! ## Helper lemmas -/

/-- Every early return of the password gate is a redirect (never an error
page). -/
theorem passwordGate_redirect {bc : String → String → Bool}
    {req : RedirectRequest} {code : String} {link : LinkDoc}
    {resp : RedirectResponse}
    (h : passwordGate bc req code link = some resp) :
    ∃ loc, resp = .redirect loc := by
  unfold passwordGate at h
  split at h
  · exact absurd h (by simp)
  · split at h
    · exact ⟨_, (Option.some.inj h).symm⟩
    · split at h
      · exact ⟨_, (Option.some.inj h).symm⟩
      · split at h
        · exact ⟨_, (Option.some.inj h).symm⟩
        · exact absurd h (by simp)

/-- When the gate lets a request through on a password-protected link, the
request carried the signed cookie or a succeeding password. -/
theorem passwordGate_none_credential {bc : String → String → Bool}
    {req : RedirectRequest} {code : String} {link : LinkDoc} {hash : String}
    (hpw : link.passwordHash = some hash)
    (h : passwordGate bc req code link = none) :
    okCookie req link = true ∨ okPw bc req hash = true := by
  unfold passwordGate at h
  rw [hpw] at h
  dsimp only at h
  split at h
  · simp at h
  · next hc =>
    simp only [Bool.and_eq_true, Bool.not_eq_true', Bool.not_eq_true] at hc
    rcases Bool.eq_false_or_eq_true (okCookie req link) with h1 | h1
    · exact Or.inl h1
    · rcases Bool.eq_false_or_eq_true (okPw bc req hash) with h2 | h2
      · exact Or.inr h2
      · exact absurd ⟨h1, h2⟩ hc

/-- A per-id increment map is the identity on a list without that id. -/
theorem map_inc_id {id : Nat} {ls : List LinkDoc}
    (h : ∀ l' ∈ ls, ¬ (l'.oid = id)) :
    ls.map (fun l => if l.oid = id then
      { l with clicksCount := l.clicksCount + 1 } else l) = ls := by
  induction ls with
  | nil => rfl
  | cons l ls ih =>
    rw [List.map_cons, if_neg (h l (List.mem_cons_self l ls)),
      ih (fun l' hl' => h l' (List.mem_cons_of_mem l hl'))]

/-- With unique ids, `updateOne`'s first-match increment agrees with a
pointwise map over the collection. -/
theorem linkIncFirst_eq_map {links : List LinkDoc} {id : Nat}
    (hnodup : (links.map (·.oid)).Nodup) :
    linkIncFirst id links =
      links.map (fun l => if l.oid = id then
        { l with clicksCount := l.clicksCount + 1 } else l) := by
  induction links with
  | nil => rfl
  | cons l ls ih =>
    simp only [List.map_cons, List.nodup_cons] at hnodup
    unfold linkIncFirst
    by_cases h : l.oid = id
    · rw [if_pos h, List.map_cons, if_pos h]
      congr 1
      refine (map_inc_id ?_).symm
      intro l' hl' heq
      apply hnodup.1
      have hm : l'.oid ∈ List.map (fun x => x.oid) ls := List.mem_map_of_mem _ hl'
      rwa [heq, ← h] at hm
    · rw [if_neg h, List.map_cons, if_neg h, ih hnodup.2]

/-- Adding one occurrence to a `$group` accumulator raises the total count
by one. -/
theorem bumpKey_sum (k : String) (acc : List (String × Nat)) :
    ((bumpKey k acc).map Prod.snd).sum = (acc.map Prod.snd).sum + 1 := by
  induction acc with
  | nil => rfl
  | cons p rest ih =>
    unfold bumpKey
    by_cases h : p.1 = k
    · rw [if_pos h]
      simp only [List.map_cons, List.sum_cons]
      ring
    · rw [if_neg h]
      simp only [List.map_cons, List.sum_cons, ih]
      ring

/-- Grouping partitions its input: the per-key counts add up to the input
length. -/
theorem groupCounts_sum {α : Type} (key : α → String) (l : List α) :
    ((groupCounts key l).map Prod.snd).sum = l.length := by
  induction l with
  | nil => rfl
  | cons c rest ih =>
    unfold groupCounts
    rw [bumpKey_sum, ih, List.length_cons]

/-- Grouping by a constant key yields a single row carrying the input
length (or no row for empty input). -/
theorem groupCounts_const {α : Type} (l : List α) :
    groupCounts (fun _ => "null") l =
      (if l.length = 0 then [] else [("null", l.length)]) := by
  induction l with
  | nil => rfl
  | cons c rest ih =>
    unfold groupCounts
    rw [ih]
    by_cases h : rest.length = 0
    · rw [if_pos h]
      simp [bumpKey, h]
    · rw [if_neg h]
      simp [bumpKey]

/-- Call `deleteOne({_id, ownerId: u})` never touches another user's saved
views. -/
theorem deleteViewOwned_filter_other (id u : Nat) (vs : List SavedViewDoc) :
    (deleteViewOwned id u vs).filter (fun v => v.ownerId ≠ u) =
      vs.filter (fun v => v.ownerId ≠ u) := by
  induction vs with
  | nil => rfl
  | cons v vs ih =>
    unfold deleteViewOwned
    by_cases h : v.oid = id ∧ v.ownerId = u
    · rw [if_pos h]
      rw [List.filter_cons_of_neg (by simp [h.2])]
    · rw [if_neg h]
      by_cases h2 : v.ownerId = u
      · rw [List.filter_cons_of_neg (by simp [h2]),
          List.filter_cons_of_neg (by simp [h2]), ih]
      · rw [List.filter_cons_of_pos (by simp [h2]),
          List.filter_cons_of_pos (by simp [h2]), ih]

/-- Creating a saved view only adds a document stamped with the caller's
id. -/
theorem createView_filter_other (newId : Nat) (now : Int) (u : Nat)
    (b : ViewBody) (vs : List SavedViewDoc) :
    ((createView newId now u b vs).2).filter (fun v => v.ownerId ≠ u) =
      vs.filter (fun v => v.ownerId ≠ u) := by
  unfold createView
  by_cases h : jsTrim b.name = ""
  · rw [if_pos h]
  · rw [if_neg h]
    dsimp only
    rw [List.filter_append, List.filter_cons_of_neg (by simp)]
    simp

/-- No sequence of saved-view operations by user `u` changes any other
user's documents. -/
theorem runViewOps_filter_other (u : Nat) (ops : List ViewOp)
    (vs : List SavedViewDoc) :
    (runViewOps u ops vs).filter (fun v => v.ownerId ≠ u) =
      vs.filter (fun v => v.ownerId ≠ u) := by
  induction ops generalizing vs with
  | nil => rfl
  | cons op ops ih =>
    cases op with
    | create newId now b =>
      unfold runViewOps
      rw [ih, createView_filter_other]
    | delete id =>
      unfold runViewOps
      rw [ih, deleteViewOwned_filter_other]

/-- Call `deleteOne({_id, ownerId: u})` never touches another user's
annotations. -/
theorem deleteAnnotationOwned_filter_other (id u : Nat)
    (as0 : List AnnotationDoc) :
    (deleteAnnotationOwned id u as0).filter (fun a => a.ownerId ≠ u) =
      as0.filter (fun a => a.ownerId ≠ u) := by
  induction as0 with
  | nil => rfl
  | cons a as0 ih =>
    unfold deleteAnnotationOwned
    by_cases h : a.oid = id ∧ a.ownerId = u
    · rw [if_pos h]
      rw [List.filter_cons_of_neg (by simp [h.2])]
    · rw [if_neg h]
      by_cases h2 : a.ownerId = u
      · rw [List.filter_cons_of_neg (by simp [h2]),
          List.filter_cons_of_neg (by simp [h2]), ih]
      · rw [List.filter_cons_of_pos (by simp [h2]),
          List.filter_cons_of_pos (by simp [h2]), ih]

/-- Creating an annotation only adds a document stamped with the caller's
id. -/
theorem annotationCreate_filter_other (newId u : Nat) (ts : Option Int)
    (label : String) (color : Option String) (as0 : List AnnotationDoc) :
    ((annotationCreate newId u ts label color as0).2).filter
        (fun a => a.ownerId ≠ u) =
      as0.filter (fun a => a.ownerId ≠ u) := by
  unfold annotationCreate
  cases ts with
  | none => rfl
  | some t =>
    dsimp only
    by_cases h : label = ""
    · rw [if_pos h]
    · rw [if_neg h]
      dsimp only
      rw [List.filter_append, List.filter_cons_of_neg (by simp)]
      simp

/-- No sequence of annotation operations by user `u` changes any other
user's documents. -/
theorem runAnnOps_filter_other (u : Nat) (ops : List AnnOp)
    (as0 : List AnnotationDoc) :
    (runAnnOps u ops as0).filter (fun a => a.ownerId ≠ u) =
      as0.filter (fun a => a.ownerId ≠ u) := by
  induction ops generalizing as0 with
  | nil => rfl
  | cons op ops ih =>
    cases op with
    | create newId ts label color =>
      unfold runAnnOps
      rw [ih, annotationCreate_filter_other]
    | delete id =>
      unfold runAnnOps
      rw [ih, deleteAnnotationOwned_filter_other]

/-- The `genCode` retry loop only ever returns a code not present in the
collection. -/
theorem genFreshCode_fresh {gen : Nat → String} {links : List LinkDoc}
    {i fuel : Nat} {c : String}
    (h : genFreshCode gen links i fuel = some c) :
    ∀ l ∈ links, l.code ≠ c := by
  induction fuel generalizing i with
  | zero => simp [genFreshCode] at h
  | succ fuel ih =>
    unfold genFreshCode at h
    split at h
    · exact ih h
    · next hfound =>
      have hnone : links.find? (fun l => l.code = gen i) = none := by
        cases hf : links.find? (fun l => l.code = gen i) with
        | none => rfl
        | some l => rw [hf] at hfound; simp at hfound
      have hc : gen i = c := Option.some.inj h
      intro l hl
      have := List.find?_eq_none.1 hnone l hl
      simpa [hc] using this

/-- With unique codes, `findOne({code})` returns exactly the member that
holds the code. -/
theorem find?_code_of_mem {links : List LinkDoc} {l : LinkDoc} {c : String}
    (hnodup : (links.map (·.code)).Nodup) (hl : l ∈ links)
    (hc : l.code = c) :
    links.find? (fun l' => l'.code = c) = some l := by
  induction links with
  | nil => simp at hl
  | cons x xs ih =>
    simp only [List.map_cons, List.nodup_cons] at hnodup
    by_cases hx : x.code = c
    · rw [List.find?_cons_of_pos _ (by simpa using hx)]
      rcases List.mem_cons.1 hl with rfl | hmem
      · rfl
      · exfalso
        apply hnodup.1
        rw [hx, ← hc]
        exact List.mem_map_of_mem _ hmem
    · rw [List.find?_cons_of_neg _ (by simpa using hx)]
      rcases List.mem_cons.1 hl with rfl | hmem
      · exact absurd hc hx
      · exact ih hnodup.2 hmem

/-- Call `findOneAndUpdate` with no match leaves the collection unchanged. -/
theorem findOneAndUpdate_none {upd : LinkDoc → LinkDoc} {reqId ownerId : Nat}
    {links links' : List LinkDoc}
    (h : findOneAndUpdate upd reqId ownerId links = (none, links')) :
    links' = links := by
  induction links generalizing links' with
  | nil =>
    unfold findOneAndUpdate at h
    have := congrArg Prod.snd h
    simpa using this.symm
  | cons l ls ih =>
    unfold findOneAndUpdate at h
    split at h
    · simp at h
    · cases hrec : findOneAndUpdate upd reqId ownerId ls with
      | mk r ls2 =>
        rw [hrec] at h
        dsimp only at h
        have h1 := congrArg Prod.fst h
        have h2 := congrArg Prod.snd h
        dsimp only at h1 h2
        rw [h1] at hrec
        rw [← h2, ih hrec]

/-- A successful `findOneAndUpdate` replaces exactly one matching document
in place. -/
theorem findOneAndUpdate_some {upd : LinkDoc → LinkDoc} {reqId ownerId : Nat}
    {links links' : List LinkDoc} {doc : LinkDoc}
    (h : findOneAndUpdate upd reqId ownerId links = (some doc, links')) :
    ∃ pre l post, links = pre ++ l :: post ∧ links' = pre ++ upd l :: post ∧
      doc = upd l ∧ l.oid = reqId ∧ l.ownerId = ownerId := by
  induction links generalizing links' with
  | nil =>
    unfold findOneAndUpdate at h
    have := congrArg Prod.fst h
    simp at this
  | cons l ls ih =>
    unfold findOneAndUpdate at h
    split at h
    · next hcond =>
      have h1 := congrArg Prod.fst h
      have h2 := congrArg Prod.snd h
      dsimp only at h1 h2
      refine ⟨[], l, ls, by simp, ?_, ?_, hcond.1, hcond.2⟩
      · simpa using h2.symm
      · exact (Option.some.inj h1).symm
    · cases hrec : findOneAndUpdate upd reqId ownerId ls with
      | mk r ls2 =>
        rw [hrec] at h
        dsimp only at h
        have h1 := congrArg Prod.fst h
        have h2 := congrArg Prod.snd h
        dsimp only at h1 h2
        rw [h1] at hrec
        obtain ⟨pre, x, post, hls, hls2, hdoc, hid, hown⟩ := ih hrec
        exact ⟨l :: pre, x, post, by rw [hls]; rfl,
          by rw [← h2, hls2]; rfl, hdoc, hid, hown⟩

/-- Stage `$set` writes `value.code` when present and keeps the old code
otherwise. -/
theorem applyUpdate_code (hashPw : String → String) (v : UpdateValue)
    (ft ff : Option String) (l : LinkDoc) :
    (applyUpdate hashPw v ft ff l).code = v.code.getD l.code := rfl

/-- Link creation preserves code uniqueness across the collection. -/
theorem createLink_nodup {gen : Nat → String} {fuel : Nat}
    {hashPw : String → String} {ft ff : Option String} {newId ownerId : Nat}
    {v : CreateValue} {links links' : List LinkDoc} {r : ApiResult LinkDoc}
    (hnodup : (links.map (·.code)).Nodup)
    (h : createLink gen fuel hashPw ft ff newId ownerId v links =
      some (r, links')) :
    (links'.map (·.code)).Nodup := by
  unfold createLink at h
  split at h
  · have := congrArg Prod.snd (Option.some.inj h)
    dsimp only at this
    rw [← this]; exact hnodup
  · split at h
    · split at h
      · simp at h
      · next code hgen =>
        have := congrArg Prod.snd (Option.some.inj h)
        dsimp only at this
        rw [← this]
        have hfresh := genFreshCode_fresh hgen
        simp only [List.map_append, List.map_cons, List.map_nil]
        rw [List.nodup_append]
        refine ⟨hnodup, by simp, ?_⟩
        intro a ha hb
        simp only [List.mem_singleton] at hb
        subst hb
        obtain ⟨l, hl, hlc⟩ := List.mem_map.1 ha
        exact hfresh l hl (by simpa [newLinkDoc] using hlc)
    · split at h
      · have := congrArg Prod.snd (Option.some.inj h)
        dsimp only at this
        rw [← this]; exact hnodup
      · next hfound =>
        have := congrArg Prod.snd (Option.some.inj h)
        dsimp only at this
        rw [← this]
        have hnone : links.find?
            (fun l => l.code = jsTrim (v.code.getD "")) = none := by
          cases hf : links.find? (fun l => l.code = jsTrim (v.code.getD "")) with
          | none => rfl
          | some l => rw [hf] at hfound; simp at hfound
        simp only [List.map_append, List.map_cons, List.map_nil]
        rw [List.nodup_append]
        refine ⟨hnodup, by simp, ?_⟩
        intro a ha hb
        simp only [List.mem_singleton] at hb
        subst hb
        obtain ⟨l, hl, hlc⟩ := List.mem_map.1 ha
        have := List.find?_eq_none.1 hnone l hl
        simp only [decide_eq_true_eq] at this
        exact this (by simpa [newLinkDoc] using hlc)

/-- Link update preserves code uniqueness across the collection (ids
unique, and the validated rename is never the empty slug). -/
theorem updateLink_nodup {hashPw : String → String} {ft ff : Option String}
    {reqId ownerId : Nat} {v : UpdateValue} {links : List LinkDoc}
    (hcodes : (links.map (·.code)).Nodup)
    (hoids : (links.map (·.oid)).Nodup)
    (hne : v.code ≠ some "") :
    (((updateLink hashPw ft ff reqId ownerId v links).2).map (·.code)).Nodup := by
  unfold updateLink
  split
  · exact hcodes
  · split
    · exact hcodes
    · next hconf =>
      cases hupd : findOneAndUpdate (applyUpdate hashPw v ft ff) reqId
          ownerId links with
      | mk ropt links2 =>
        cases ropt with
        | none => exact hcodes
        | some doc =>
          dsimp only
          obtain ⟨pre, l, post, hlinks, hlinks2, hdoc, hid, hown⟩ :=
            findOneAndUpdate_some hupd
          rw [hlinks2]
          subst hlinks
          simp only [List.map_append, List.map_cons] at hcodes ⊢
          rw [List.nodup_middle] at hcodes ⊢
          rw [List.nodup_cons] at hcodes ⊢
          rw [applyUpdate_code]
          cases hvc : v.code with
          | none => exact ⟨by simpa using hcodes.1, hcodes.2⟩
          | some c =>
            have hcne : c ≠ "" := by
              intro hc; exact hne (by rw [hvc, hc])
            rw [hvc] at hconf
            dsimp only at hconf
            simp only [Option.getD_some]
            rw [if_neg hcne] at hconf
            cases hf : List.find? (fun l' => l'.code = c)
                (pre ++ l :: post) with
            | none =>
              have hnotin := List.find?_eq_none.1 hf
              refine ⟨?_, hcodes.2⟩
              intro hmem
              rcases List.mem_append.1 hmem with hm | hm
              · obtain ⟨x, hx, hxc⟩ := List.mem_map.1 hm
                have hx2 := hnotin x (List.mem_append.2 (Or.inl hx))
                exact absurd hxc (by simpa using hx2)
              · obtain ⟨x, hx, hxc⟩ := List.mem_map.1 hm
                have hx2 := hnotin x
                  (List.mem_append.2 (Or.inr (List.mem_cons_of_mem l hx)))
                exact absurd hxc (by simpa using hx2)
            | some l' =>
              rw [hf] at hconf
              have hl'id : l'.oid = reqId := by
                by_contra hx
                exact hconf (by simpa using hx)
              have hl'mem := List.mem_of_find?_eq_some hf
              have hl'code : l'.code = c := by
                simpa using List.find?_some hf
              have hlmem : l ∈ pre ++ l :: post :=
                List.mem_append.2 (Or.inr (List.mem_cons_self l post))
              have hll : l' = l := by
                apply List.inj_on_of_nodup_map hoids hl'mem hlmem
                rw [hl'id, hid]
              rw [← hl'code, hll]
              exact ⟨by simpa using hcodes.1, hcodes.2⟩

/-! ## Claim theorems -/

/-- C1: the redirect guards fire in a fixed order: 404 exactly when the
code resolves to no link or an inactive one; then 410 exactly when the
link's expiry is strictly before now; then 429 exactly when the cap is
nonzero and the counter has reached it; and once the optional password
gate passes, the response is the 302 to the link's long URL. -/
theorem redirect_guard_order (bc : String → String → Bool)
    (hashIp : String → String) (links : List LinkDoc)
    (req : RedirectRequest) (now : Int) :
    ((links.find? (fun l => l.code = jsTrim req.code) = none ∨
      ∃ l, links.find? (fun l => l.code = jsTrim req.code) = some l ∧
        l.isActive = false) ↔
      (redirectHandler bc hashIp links req now).1 = .page 404 "Link not found") ∧
    (∀ l, links.find? (fun l => l.code = jsTrim req.code) = some l →
      l.isActive = true →
      ((∃ e, l.expiresAt = some e ∧ e < now) ↔
        (redirectHandler bc hashIp links req now).1 = .page 410 "Link expired")) ∧
    (∀ l, links.find? (fun l => l.code = jsTrim req.code) = some l →
      l.isActive = true → ¬ (∃ e, l.expiresAt = some e ∧ e < now) →
      ((l.maxClicks ≠ 0 ∧ l.clicksCount ≥ l.maxClicks) ↔
        (redirectHandler bc hashIp links req now).1 =
          .page 429 "Max clicks reached")) ∧
    (∀ l, links.find? (fun l => l.code = jsTrim req.code) = some l →
      l.isActive = true → ¬ (∃ e, l.expiresAt = some e ∧ e < now) →
      ¬ (l.maxClicks ≠ 0 ∧ l.clicksCount ≥ l.maxClicks) →
      passwordGate bc req (jsTrim req.code) l = none →
      (redirectHandler bc hashIp links req now).1 = .redirect l.longUrl) := by
  have hexp : ∀ (l : LinkDoc),
      ((match l.expiresAt with
        | some e => decide (e < now)
        | none => false) = true) ↔ (∃ e, l.expiresAt = some e ∧ e < now) := by
    intro l
    cases h : l.expiresAt <;> simp [h]
  refine ⟨?_, ?_, ?_, ?_⟩
  · constructor
    · intro h
      unfold redirectHandler
      rcases h with h | ⟨l, hfind, hact⟩
      · rw [h]
      · rw [hfind]; simp [hact]
    · intro h
      unfold redirectHandler at h
      split at h
      · next hfind => exact Or.inl hfind
      · next l hfind =>
        refine Or.inr ⟨l, hfind, ?_⟩
        split at h
        · next hia => simpa using hia
        · split at h
          · simp at h
          · split at h
            · simp at h
            · split at h
              · next resp heq =>
                obtain ⟨loc, rfl⟩ := passwordGate_redirect heq
                simp at h
              · simp at h
  · intro l hfind hact
    unfold redirectHandler
    rw [hfind]
    dsimp only
    rw [if_neg (by simp [hact])]
    constructor
    · intro he
      rw [if_pos ((hexp l).2 he)]
    · intro h
      split at h
      · next hc => exact (hexp l).1 hc
      · split at h
        · simp at h
        · split at h
          · next resp heq =>
            obtain ⟨loc, rfl⟩ := passwordGate_redirect heq
            simp at h
          · simp at h
  · intro l hfind hact hne
    unfold redirectHandler
    rw [hfind]
    dsimp only
    rw [if_neg (by simp [hact]), if_neg (by rw [hexp l]; exact hne)]
    constructor
    · intro ⟨h1, h2⟩
      rw [if_pos (by simp [h1, h2])]
    · intro h
      split at h
      · next hc =>
        simp only [Bool.and_eq_true, decide_eq_true_eq] at hc
        exact hc
      · split at h
        · next resp heq =>
          obtain ⟨loc, rfl⟩ := passwordGate_redirect heq
          simp at h
        · simp at h
  · intro l hfind hact hne hnm hgate
    unfold redirectHandler
    rw [hfind]
    dsimp only
    rw [if_neg (by simp [hact]), if_neg (by rw [hexp l]; exact hne),
      if_neg (by simpa using hnm), hgate]

/-- C1 witness: on a concrete expired link the handler answers 410. -/
theorem redirect_guard_order_witness :
    (redirectHandler sampleBc sampleHashIp [sampleExpiredLink] sampleReq 10).1 =
      .page 410 "Link expired" :=
  ((redirect_guard_order sampleBc sampleHashIp [sampleExpiredLink]
      sampleReq 10).2.1 sampleExpiredLink (by decide) (by decide)).1
    ⟨5, rfl, by decide⟩

/-- C2: on a password-protected link, the destination branch (the only one
that logs a click, and the only 302 to the long URL) is reachable only
with the signed cookie or a succeeding password; with neither credential —
once the earlier guards pass — the response is the 302 to the unlock
page and no click is logged. -/
theorem password_gate_protects (bc : String → String → Bool)
    (hashIp : String → String) (links : List LinkDoc)
    (req : RedirectRequest) (now : Int) (link : LinkDoc) (hash : String)
    (hfind : links.find? (fun l => l.code = jsTrim req.code) = some link)
    (hpw : link.passwordHash = some hash) :
    ((redirectHandler bc hashIp links req now).2.isSome = true →
      (redirectHandler bc hashIp links req now).1 = .redirect link.longUrl ∧
      (okCookie req link = true ∨ okPw bc req hash = true)) ∧
    (link.isActive = true → ¬ (∃ e, link.expiresAt = some e ∧ e < now) →
      ¬ (link.maxClicks ≠ 0 ∧ link.clicksCount ≥ link.maxClicks) →
      okCookie req link = false → okPw bc req hash = false →
      redirectHandler bc hashIp links req now =
        (.redirect ("/r/" ++ jsTrim req.code ++ "/unlock"), none)) := by
  have hexp : ∀ (l : LinkDoc),
      ((match l.expiresAt with
        | some e => decide (e < now)
        | none => false) = true) ↔ (∃ e, l.expiresAt = some e ∧ e < now) := by
    intro l
    cases h : l.expiresAt <;> simp [h]
  constructor
  · intro h
    unfold redirectHandler at h ⊢
    rw [hfind] at h ⊢
    dsimp only at h ⊢
    by_cases hia : (!link.isActive) = true
    · rw [if_pos hia] at h; simp at h
    · rw [if_neg hia] at h ⊢
      by_cases hexp' : (match link.expiresAt with
        | some e => decide (e < now)
        | none => false) = true
      · rw [if_pos hexp'] at h; simp at h
      · rw [if_neg hexp'] at h ⊢
        by_cases hmax' : (decide (link.maxClicks ≠ 0) &&
            decide (link.clicksCount ≥ link.maxClicks)) = true
        · rw [if_pos hmax'] at h; simp at h
        · rw [if_neg hmax'] at h ⊢
          cases hgate : passwordGate bc req (jsTrim req.code) link with
          | some resp => rw [hgate] at h; simp at h
          | none =>
            dsimp only at h ⊢
            exact ⟨rfl, passwordGate_none_credential hpw hgate⟩
  · intro hact hne hnm hcook hokpw
    unfold redirectHandler
    rw [hfind]
    dsimp only
    rw [if_neg (by simp [hact]), if_neg (by rw [hexp link]; exact hne),
      if_neg (by simpa using hnm)]
    have hgate : passwordGate bc req (jsTrim req.code) link =
        some (.redirect ("/r/" ++ jsTrim req.code ++ "/unlock")) := by
      unfold passwordGate
      rw [hpw]
      dsimp only
      rw [if_pos (by simp [hcook, hokpw])]
    rw [hgate]

/-- C2 witness: with no cookie and no password the protected link answers
the unlock redirect. -/
theorem password_gate_protects_witness :
    redirectHandler sampleBc sampleHashIp [samplePwLink] sampleReq 10 =
      (.redirect ("/r/" ++ jsTrim sampleReq.code ++ "/unlock"), none) :=
  (password_gate_protects sampleBc sampleHashIp [samplePwLink] sampleReq 10
      samplePwLink "h" (by decide) rfl).2 (by decide)
    (by rintro ⟨e, he, _⟩; simp [samplePwLink] at he)
    (by decide) (by decide) (by decide)

/-- C3: the inline fallback inserts exactly one click document built from
the payload (timestamp defaulting to now), bumps `clicksCount` of the
matching link by one leaving all its other fields and all other links
untouched, and the stored click carries only the hashed IP (the handler
hashes the request IP before building the payload; the click schema has no
raw-IP field). -/
theorem click_logging_frame (payload : ClickPayload) (now : Int)
    (st : Store) (hnodup : (st.links.map (·.oid)).Nodup) :
    enqueueClickFallback payload now st =
      { links := st.links.map (fun l => if l.oid = payload.linkId then
          { l with clicksCount := l.clicksCount + 1 } else l)
        clicks := st.clicks ++
          [{ linkId := payload.linkId, ts := now, referer := payload.referer
             country := payload.country, ua := payload.ua
             device := payload.device, browser := payload.browser
             ipHash := payload.ipHash, tzOffset := payload.tzOffset
             utm := payload.utm }] } ∧
    (∀ (hashIpF : String → String) (link : LinkDoc) (req : RedirectRequest),
      (buildClickPayload hashIpF link req).ipHash = hashIpF req.ip) := by
  constructor
  · unfold enqueueClickFallback clickCreate
    simp only
    rw [linkIncFirst_eq_map hnodup]
    rfl
  · intro hashIpF link req
    rfl

/-- C3 witness: logging one concrete click appends it and bumps the one
matching link. -/
theorem click_logging_frame_witness :
    enqueueClickFallback samplePayload 7 sampleStore =
      { links := sampleStore.links.map
          (fun l => if l.oid = samplePayload.linkId then
            { l with clicksCount := l.clicksCount + 1 } else l)
        clicks := sampleStore.clicks ++
          [{ linkId := samplePayload.linkId, ts := 7
             referer := samplePayload.referer
             country := samplePayload.country, ua := samplePayload.ua
             device := samplePayload.device, browser := samplePayload.browser
             ipHash := samplePayload.ipHash
             tzOffset := samplePayload.tzOffset
             utm := samplePayload.utm }] } :=
  (click_logging_frame samplePayload 7 sampleStore (by decide)).1

/-- C4: the BullMQ worker body applied to an enqueued `{ payload }` job and
the inline fallback perform the same store transition, so the per-click
effect does not depend on whether the queue is enabled. -/
theorem queue_fallback_equiv (payload : ClickPayload) (now : Int)
    (st : Store) :
    workerJobBody (some payload) now st = enqueueClickFallback payload now st ∧
    enqueueClickQueued payload now st = enqueueClickFallback payload now st :=
  ⟨rfl, rfl⟩

/-- C5: short codes stay unique.  The auto-generate loop only ever returns
a code not present in the collection; creating with a taken custom code, or
renaming to a code held by a different link, answers 409 "Code already
taken" and leaves the collection unchanged; and both create and update
preserve pairwise-distinct codes (update assuming Mongo-unique ids and a
validated non-empty slug). -/
theorem code_uniqueness :
    (∀ (gen : Nat → String) (links : List LinkDoc) (i fuel : Nat)
        (c : String),
      genFreshCode gen links i fuel = some c → ∀ l ∈ links, l.code ≠ c) ∧
    (∀ (gen : Nat → String) (fuel : Nat) (hashPw : String → String)
        (ft ff : Option String) (newId ownerId : Nat) (v : CreateValue)
        (links : List LinkDoc),
      isSafeUrl v.longUrl = true →
      jsTrim (v.code.getD "") ≠ "" →
      (∃ l ∈ links, l.code = jsTrim (v.code.getD "")) →
      createLink gen fuel hashPw ft ff newId ownerId v links =
        some (.err 409 "Code already taken", links)) ∧
    (∀ (gen : Nat → String) (fuel : Nat) (hashPw : String → String)
        (ft ff : Option String) (newId ownerId : Nat) (v : CreateValue)
        (links links' : List LinkDoc) (r : ApiResult LinkDoc),
      (links.map (·.code)).Nodup →
      createLink gen fuel hashPw ft ff newId ownerId v links =
        some (r, links') →
      (links'.map (·.code)).Nodup) ∧
    (∀ (hashPw : String → String) (ft ff : Option String)
        (reqId ownerId : Nat) (v : UpdateValue) (links : List LinkDoc)
        (c : String) (l : LinkDoc),
      (links.map (·.code)).Nodup →
      (match v.longUrl with
       | some u => isSafeUrl u = true
       | none => True) →
      v.code = some c → c ≠ "" → l ∈ links → l.code = c → l.oid ≠ reqId →
      updateLink hashPw ft ff reqId ownerId v links =
        (.err 409 "Code already taken", links)) ∧
    (∀ (hashPw : String → String) (ft ff : Option String)
        (reqId ownerId : Nat) (v : UpdateValue) (links : List LinkDoc),
      (links.map (·.code)).Nodup → (links.map (·.oid)).Nodup →
      v.code ≠ some "" →
      (((updateLink hashPw ft ff reqId ownerId v links).2).map
        (·.code)).Nodup) := by
  refine ⟨fun gen links i fuel c h => genFreshCode_fresh h, ?_,
    fun gen fuel hashPw ft ff newId ownerId v links links' r h1 h2 =>
      createLink_nodup h1 h2, ?_,
    fun hashPw ft ff reqId ownerId v links h1 h2 h3 =>
      updateLink_nodup h1 h2 h3⟩
  · intro gen fuel hashPw ft ff newId ownerId v links hsafe hne ⟨l, hl, hc⟩
    unfold createLink
    rw [if_neg (by simp [hsafe]), if_neg hne,
      if_pos (List.find?_isSome.2 ⟨l, hl, by simp [hc]⟩)]
  · intro hashPw ft ff reqId ownerId v links c l hnodup hsafe hvc hcne hl hc
      hoid
    unfold updateLink
    rw [if_neg ?hsafe]
    case hsafe =>
      cases hu : v.longUrl with
      | none => simp
      | some u => rw [hu] at hsafe; simp [hsafe]
    rw [if_pos ?hconf]
    case hconf =>
      rw [hvc]
      dsimp only
      rw [if_neg hcne, find?_code_of_mem hnodup hl hc]
      simpa using hoid

/-- C5 witness: creating with an already-taken custom code answers 409 and
leaves the collection unchanged. -/
theorem code_uniqueness_witness :
    createLink (fun _ => "zzzzzzz") 1 (fun s => s) none none 9 1
      { longUrl := "https://example.com", code := some "mycode1"
        notes := none, expiresAt := none, password := none
        maxClicks := 0, domain := none }
      [{ sampleBusyLink with code := "mycode1" }] =
      some (.err 409 "Code already taken",
        [{ sampleBusyLink with code := "mycode1" }]) :=
  code_uniqueness.2.1 (fun _ => "zzzzzzz") 1 (fun s => s) none none 9 1
    { longUrl := "https://example.com", code := some "mycode1"
      notes := none, expiresAt := none, password := none
      maxClicks := 0, domain := none }
    [{ sampleBusyLink with code := "mycode1" }]
    (by decide) (by decide)
    ⟨{ sampleBusyLink with code := "mycode1" }, by decide, by decide⟩

/-- C6: the overview payload is internally consistent — `totals.clicks`
equals the sum of the per-bucket `byDay` counts, both being aggregations of
the same matched click set. -/
theorem totals_eq_byday_sum (fmtBucket : Int → String) (tzMin : Int)
    (ownerId : Nat) (since : Int) (f : ClickFilters) (links : List LinkDoc)
    (clicks : List ClickDoc) :
    (overviewPayloadCore fmtBucket tzMin ownerId since f links clicks).2 =
      (((overviewPayloadCore fmtBucket tzMin ownerId since f links
        clicks).1).map Prod.snd).sum := by
  unfold overviewPayloadCore
  by_cases h : ((links.filter (fun l => l.ownerId = ownerId)).map
      (·.oid)).isEmpty
  · rw [if_pos h]
    rfl
  · rw [if_neg h]
    dsimp only
    unfold overviewTotalsClicks overviewByDay
    rw [groupCounts_const, groupCounts_sum]
    by_cases h2 : (clicks.filter (matchNow
        ((links.filter (fun l => l.ownerId = ownerId)).map (·.oid))
        since f)).length = 0
    · rw [if_pos h2, h2]
    · rw [if_neg h2]

/-- C7: saved views and annotations are strictly per-user: listing filters
on the caller's `ownerId`, and no sequence of create/delete operations by
one user changes any document owned by another user. -/
theorem per_user_isolation (u : Nat) :
    (∀ (vs : List SavedViewDoc), ∀ v ∈ listViews u vs,
      v.ownerId = u ∧ v ∈ vs) ∧
    (∀ (ops : List ViewOp) (vs : List SavedViewDoc),
      (runViewOps u ops vs).filter (fun v => v.ownerId ≠ u) =
        vs.filter (fun v => v.ownerId ≠ u)) ∧
    (∀ (since : Int) (as0 : List AnnotationDoc),
      ∀ a ∈ listAnnotations u since as0, a.ownerId = u ∧ a ∈ as0) ∧
    (∀ (ops : List AnnOp) (as0 : List AnnotationDoc),
      (runAnnOps u ops as0).filter (fun a => a.ownerId ≠ u) =
        as0.filter (fun a => a.ownerId ≠ u)) := by
  refine ⟨?_, runViewOps_filter_other u, ?_, runAnnOps_filter_other u⟩
  · intro vs v hv
    unfold listViews at hv
    have := List.mem_filter.1 hv
    exact ⟨by simpa using this.2, this.1⟩
  · intro since as0 a ha
    unfold listAnnotations at ha
    have := List.mem_filter.1 ha
    refine ⟨?_, this.1⟩
    have h2 := this.2
    simp at h2
    exact h2.1

/-- C7 witness: the view listing for user 1 only surfaces user 1's own
stored documents. -/
theorem per_user_isolation_witness :
    sampleView.ownerId = 1 ∧
      sampleView ∈ [sampleView, { sampleView with oid := 11, ownerId := 2 }] :=
  (per_user_isolation 1).1
    [sampleView, { sampleView with oid := 11, ownerId := 2 }]
    sampleView (by decide)

/-- C8: the 429 "Max clicks reached" answer occurs only when the cap is
nonzero and the counter has reached it; a link with `maxClicks = 0` (the
schema default) is never refused for the cap, however large its counter. -/
theorem maxclicks_zero_unlimited (bc : String → String → Bool)
    (hashIp : String → String) (links : List LinkDoc)
    (req : RedirectRequest) (now : Int) :
    ((redirectHandler bc hashIp links req now).1 =
        .page 429 "Max clicks reached" →
      ∃ link, links.find? (fun l => l.code = jsTrim req.code) = some link ∧
        link.maxClicks ≠ 0 ∧ link.clicksCount ≥ link.maxClicks) ∧
    (∀ link, links.find? (fun l => l.code = jsTrim req.code) = some link →
      link.maxClicks = 0 →
      (redirectHandler bc hashIp links req now).1 ≠
        .page 429 "Max clicks reached") := by
  unfold redirectHandler
  constructor
  · intro h
    split at h
    · simp at h
    · next link hfind =>
      refine ⟨link, hfind, ?_⟩
      split at h
      · simp at h
      · split at h
        · simp at h
        · split at h
          · next hmax =>
            simp only [Bool.and_eq_true, decide_eq_true_eq, ne_eq] at hmax
            exact ⟨hmax.1, hmax.2⟩
          · split at h
            · next resp heq =>
              obtain ⟨loc, rfl⟩ := passwordGate_redirect heq
              simp at h
            · simp at h
  · intro link hfind hmax
    rw [hfind]
    dsimp only
    split
    · simp
    · split
      · simp
      · split
        · next hcond => simp [hmax] at hcond
        · split
          · next resp heq =>
            obtain ⟨loc, rfl⟩ := passwordGate_redirect heq
            simp
          · simp

/-- C8 witness: a concrete zero-cap link with a million clicks is still not
refused for the cap. -/
theorem maxclicks_zero_unlimited_witness :
    (redirectHandler sampleBc sampleHashIp [sampleBusyLink] sampleReq 10).1 ≠
      .page 429 "Max clicks reached" :=
  (maxclicks_zero_unlimited sampleBc sampleHashIp [sampleBusyLink]
    sampleReq 10).2 sampleBusyLink (by decide) (by decide)

/-- C9 counterexample: `HTTP://10.0.0.1` targets the 10.x private range
(the claim's characterization marks it unsafe), yet `isSafeUrl` accepts it
— the `privateNets` patterns for the 10./192.168./172.16–31 ranges carry
no `i` flag, so an upper-case scheme slips past them — and the create route
stores the link instead of failing with 400. -/
theorem unsafe_url_counterexample :
    claimUnsafeUrl "HTTP://10.0.0.1" = true ∧
    isSafeUrl "HTTP://10.0.0.1" = true ∧
    createLink (fun _ => "zzzzzzz") 1 (fun s => s) none none 9 1
        upperTenValue [] =
      some (.ok (newLinkDoc (fun s => s) 9 1 upperTenValue "mycode1"
          none none),
        [newLinkDoc (fun s => s) 9 1 upperTenValue "mycode1" none none]) :=
  ⟨by decide, by decide, by decide⟩

/-- C9 amended: create and update fail with 400 "Unsafe URL" leaving the
store unchanged exactly when the (present) long URL fails `isSafeUrl`,
whose rejection set is: no case-insensitive `http(s)://` prefix, or a
case-insensitive `http(s)://localhost`, `http(s)://127.0.0.1`,
`http(s)://0.0.0.0` or `javascript:` prefix, or a case-SENSITIVE
`http(s)://10.`, `http(s)://192.168.` or `http(s)://172.(16–31).` prefix
(those three patterns carry no `i` flag, so upper-case schemes bypass
them). -/
theorem unsafe_url_amended :
    (∀ (gen : Nat → String) (fuel : Nat) (hashPw : String → String)
        (ft ff : Option String) (newId ownerId : Nat) (v : CreateValue)
        (links : List LinkDoc),
      createLink gen fuel hashPw ft ff newId ownerId v links =
          some (.err 400 "Unsafe URL", links) ↔
        isSafeUrl v.longUrl = false) ∧
    (∀ (hashPw : String → String) (ft ff : Option String)
        (reqId ownerId : Nat) (v : UpdateValue) (links : List LinkDoc),
      updateLink hashPw ft ff reqId ownerId v links =
          (.err 400 "Unsafe URL", links) ↔
        (∃ u, v.longUrl = some u ∧ isSafeUrl u = false)) ∧
    (∀ url : String,
      isSafeUrl url = false ↔
        (!(startsWithCI "http://" (jsTrim url).data ||
           startsWithCI "https://" (jsTrim url).data) ||
         privateNetHit (jsTrim url).data) = true) := by
  refine ⟨?_, ?_, ?_⟩
  · intro gen fuel hashPw ft ff newId ownerId v links
    constructor
    · intro h
      unfold createLink at h
      split at h
      · next hc => simpa using hc
      · split at h
        · split at h
          · simp at h
          · have := congrArg Prod.fst (Option.some.inj h)
            simp at this
        · split at h
          · have := congrArg Prod.fst (Option.some.inj h)
            simp at this
          · have := congrArg Prod.fst (Option.some.inj h)
            simp at this
    · intro h
      unfold createLink
      rw [if_pos (by simp [h])]
  · intro hashPw ft ff reqId ownerId v links
    constructor
    · intro h
      unfold updateLink at h
      split at h
      · next hc =>
        cases hu : v.longUrl with
        | none => rw [hu] at hc; simp at hc
        | some u =>
          rw [hu] at hc
          refine ⟨u, rfl, ?_⟩
          simpa using hc
      · split at h
        · have := congrArg Prod.fst h
          simp at this
        · split at h
          · have := congrArg Prod.fst h
            simp at this
          · have := congrArg Prod.fst h
            simp at this
    · rintro ⟨u, hu, hbad⟩
      unfold updateLink
      rw [if_pos (by rw [hu]; simp [hbad])]
  · intro url
    simp only [isSafeUrl]
    by_cases hA : (startsWithCI "http://" (jsTrim url).data ||
        startsWithCI "https://" (jsTrim url).data) = true
    · simp [hA]
    · simp [hA]

/-- C9 amended witness: a lower-case `http://10.0.0.1` long URL makes the
create route answer 400 "Unsafe URL" with the collection untouched. -/
theorem unsafe_url_amended_witness :
    createLink (fun _ => "zzzzzzz") 1 (fun s => s) none none 9 1
        lowerTenValue [] =
      some (.err 400 "Unsafe URL", []) :=
  (unsafe_url_amended.1 (fun _ => "zzzzzzz") 1 (fun s => s) none none 9 1
    lowerTenValue []).2 (by decide)

/-- C10: with `DEV_MAIL` off, `POST /forgot` on a valid email returns the
same 200 response with the body "If the email exists, a code has been
sent." and no dev-code field, whether or not an account with that email
exists — the response is a constant, so it reveals nothing about account
existence. -/
theorem forgot_no_account_leak (validate : String → Option String)
    (gen6 : String) (now : Int) (email : String)
    (hvalid : validate email = none) (users1 users2 : List UserDoc) :
    (forgotHandler validate false gen6 now email users1).1 =
      { status := 200
        message := "If the email exists, a code has been sent."
        devCode := none } ∧
    (forgotHandler validate false gen6 now email users1).1 =
      (forgotHandler validate false gen6 now email users2).1 := by
  have key : ∀ users : List UserDoc,
      (forgotHandler validate false gen6 now email users).1 =
        { status := 200
          message := "If the email exists, a code has been sent."
          devCode := none } := by
    intro users
    unfold forgotHandler
    rw [hvalid]
    cases users.find? (fun u => u.email = jsToLower (jsTrim email)) <;> rfl
  exact ⟨key users1, (key users1).trans (key users2).symm⟩

/-- C10 witness: the response is the same constant whether the store holds
the account or not. -/
theorem forgot_no_account_leak_witness :
    (forgotHandler (fun _ => none) false "123456" 0 "sam@example.com"
        [sampleUser]).1 =
      { status := 200
        message := "If the email exists, a code has been sent."
        devCode := none } ∧
    (forgotHandler (fun _ => none) false "123456" 0 "sam@example.com"
        [sampleUser]).1 =
      (forgotHandler (fun _ => none) false "123456" 0 "sam@example.com"
        []).1 :=
  forgot_no_account_leak (fun _ => none) "123456" 0 "sam@example.com" rfl
    [sampleUser] []

end Shortly
